import Mathlib

/-!
Verification development for the proposal-assistant frontend (src/index.tsx).

The embedding models JavaScript strings as `List Char`.  JS whitespace
(`\s`, also used by `String.prototype.trim`) is `isJsWs`; JSON whitespace
(the four characters accepted by `JSON.parse`) is `isJsonWs`.  Machine
floats are modelled as exact rationals (`ℚ`): every JSON numeric literal
denotes a decimal rational, and none of the verified properties depend on
IEEE-754 rounding.  Runtime exceptions are modelled with `Except`.
-/

namespace ProposalAssistant

/-- The JavaScript `\s` character class (also the `String.prototype.trim`
whitespace set): ASCII whitespace plus the Unicode space separators,
line/paragraph separators, NBSP, and the BOM. -/
def isJsWs (c : Char) : Bool :=
  let n := c.toNat
  n = 9 || n = 10 || n = 11 || n = 12 || n = 13 || n = 32 ||
  n = 0xa0 || n = 0x1680 || (0x2000 ≤ n && n ≤ 0x200a) ||
  n = 0x2028 || n = 0x2029 || n = 0x202f || n = 0x205f || n = 0x3000 || n = 0xfeff

/-- Drop trailing JS whitespace. -/
def dropTrailingWs (l : List Char) : List Char :=
  (l.reverse.dropWhile isJsWs).reverse

/-- `String.prototype.trim`: drop leading and trailing JS whitespace. -/
def jsTrim (l : List Char) : List Char :=
  dropTrailingWs (l.dropWhile isJsWs)

/-- The three-backtick fence delimiter (`\x60` is the backtick). -/
def fenceMark : List Char := ['\x60', '\x60', '\x60']

/-- The leading markdown fence pattern `` ```json `` matched at position 0
by the first alternative of the regex `/^```json\s*|```\s*$/g`. -/
def fenceJsonMark : List Char := fenceMark ++ ['j', 's', 'o', 'n']

/-- Scan for the second regex alternative `` ```\s*$ ``.  Without the `m`
flag, `$` matches only at the very end of the input, so the alternative
matches exactly when the remaining suffix is `` ``` `` followed by
whitespace only; the replacement deletes that whole suffix.  All other
characters are copied unchanged. -/
def scanTail : List Char → List Char
  | [] => []
  | c :: rest =>
    if fenceMark.isPrefixOf (c :: rest) && ((c :: rest).drop 3).all isJsWs then []
    else c :: scanTail rest

/-- `raw.replace(/^```json\s*|```\s*$/g, '')` from `handleGenerateClick`:
the first alternative is anchored at position 0 and consumes
`` ```json `` plus the maximal following whitespace run (note it requires
the literal `json`: a bare leading `` ``` `` fence is *not* matched);
the scan then continues with the second alternative only. -/
def fenceReplace (s : List Char) : List Char :=
  if fenceJsonMark.isPrefixOf s then scanTail ((s.drop 7).dropWhile isJsWs)
  else scanTail s

/-- `response.text.replace(/^```json\s*|```\s*$/g, '').trim()` — the
`cleanedText` computed by the controller before `JSON.parse`. -/
def cleanResponseText (s : List Char) : List Char :=
  jsTrim (fenceReplace s)

/-- `unsafe.replace(/c/g, r)` for a single-character pattern: replace every
occurrence of `target` by `replacement`. -/
def replaceAll (target : Char) (replacement : List Char) : List Char → List Char
  | [] => []
  | c :: rest =>
    if c = target then replacement ++ replaceAll target replacement rest
    else c :: replaceAll target replacement rest

/-- `escapeHtml` from src/index.tsx: the five global replacements applied in
source order (`&` first, then `<`, `>`, `"`, `'`). -/
def escapeHtml (s : List Char) : List Char :=
  replaceAll '\x27' "&#039;".data
    (replaceAll '"' "&quot;".data
      (replaceAll '>' "&gt;".data
        (replaceAll '<' "&lt;".data
          (replaceAll '&' "&amp;".data s))))

/-- Image of a single character under `escapeHtml`. -/
def escChar (c : Char) : List Char :=
  if c = '&' then "&amp;".data
  else if c = '<' then "&lt;".data
  else if c = '>' then "&gt;".data
  else if c = '"' then "&quot;".data
  else if c = '\x27' then "&#039;".data
  else [c]

/-- Single-pass form of `escapeHtml`, used for the proofs. -/
def escapeList : List Char → List Char
  | [] => []
  | c :: rest => escChar c ++ escapeList rest

/-- Standard HTML entity decoding restricted to the five entities produced
by `escapeHtml` (`&amp;` `&lt;` `&gt;` `&quot;` `&#039;`); any other text,
including a stray `&`, is copied verbatim. -/
def htmlDecode : List Char → List Char
  | [] => []
  | c :: rest =>
    if c = '&' then
      if "amp;".data.isPrefixOf rest then '&' :: htmlDecode (rest.drop 4)
      else if "lt;".data.isPrefixOf rest then '<' :: htmlDecode (rest.drop 3)
      else if "gt;".data.isPrefixOf rest then '>' :: htmlDecode (rest.drop 3)
      else if "quot;".data.isPrefixOf rest then '"' :: htmlDecode (rest.drop 5)
      else if "#039;".data.isPrefixOf rest then '\x27' :: htmlDecode (rest.drop 5)
      else c :: htmlDecode rest
    else c :: htmlDecode rest
termination_by l => l.length
decreasing_by
  all_goals simp [List.length_drop]
  all_goals omega

/-- Checks that every occurrence of `&` begins one of the five entity
sequences `&amp;` `&lt;` `&gt;` `&quot;` `&#039;`. -/
def ampEntityOk : List Char → Bool
  | [] => true
  | c :: rest =>
    if c = '&' then
      if "amp;".data.isPrefixOf rest then ampEntityOk (rest.drop 4)
      else if "lt;".data.isPrefixOf rest then ampEntityOk (rest.drop 3)
      else if "gt;".data.isPrefixOf rest then ampEntityOk (rest.drop 3)
      else if "quot;".data.isPrefixOf rest then ampEntityOk (rest.drop 5)
      else if "#039;".data.isPrefixOf rest then ampEntityOk (rest.drop 5)
      else false
    else ampEntityOk rest
termination_by l => l.length
decreasing_by
  all_goals simp [List.length_drop]
  all_goals omega

/-- Checks that none of `<`, `>`, `"`, `'` occurs literally. -/
def noRawSpecials (l : List Char) : Bool :=
  l.all fun c => !(c = '<' || c = '>' || c = '"' || c = '\x27')

/-- JavaScript values as far as this program observes them: the JSON data
kinds plus `undefined`.  Numbers are exact rationals (every JSON numeric
literal denotes a decimal rational; IEEE-754 rounding is outside the
model).  Object fields are kept in source order; later duplicates win on
lookup, matching `JSON.parse`. -/
inductive JSVal where
  | undefined : JSVal
  | null : JSVal
  | bool : Bool → JSVal
  | num : ℚ → JSVal
  | str : List Char → JSVal
  | arr : List JSVal → JSVal
  | obj : List (List Char × JSVal) → JSVal

/-- The whitespace accepted by `JSON.parse` (only these four characters,
unlike the JS `\s` class). -/
def isJsonWs (c : Char) : Bool :=
  c = ' ' || c = '\t' || c = '\n' || c = '\r'

def skipJsonWs (l : List Char) : List Char := l.dropWhile isJsonWs

def isDigit (c : Char) : Bool := '0' ≤ c && c ≤ '9'

def digitsToNat (ds : List Char) : Nat :=
  ds.foldl (fun a c => a * 10 + (c.toNat - 48)) 0

/-- Parse a JSON numeric literal: `-? int frac? exp?` with the JSON
restrictions (no leading zeros, no bare `.`), returning its exact rational
value and the rest of the input. -/
def parseJsonNumber (l : List Char) : Option (ℚ × List Char) := do
  let (neg, l1) :=
    match l with
    | c :: t => if c = '-' then (true, t) else (false, l)
    | [] => (false, l)
  let (ipDigits, l2) ←
    match l1 with
    | c :: t =>
      if c = '0' then some ([c], t)
      else if isDigit c then some (c :: t.takeWhile isDigit, t.dropWhile isDigit)
      else none
    | [] => none
  let (fpDigits, l3) ←
    match l2 with
    | c :: t =>
      if c = '.' then
        let ds := t.takeWhile isDigit
        if ds.isEmpty then none else some (ds, t.dropWhile isDigit)
      else some (([] : List Char), l2)
    | [] => some (([] : List Char), l2)
  let (ex, l4) ←
    match l3 with
    | c :: t =>
      if c = 'e' || c = 'E' then
        let (esign, t1) :=
          match t with
          | c2 :: t2 =>
            if c2 = '+' then ((1 : Int), t2)
            else if c2 = '-' then ((-1 : Int), t2)
            else ((1 : Int), t)
          | [] => ((1 : Int), t)
        let ds := t1.takeWhile isDigit
        if ds.isEmpty then none
        else some (esign * (digitsToNat ds : Int), t1.dropWhile isDigit)
      else some ((0 : Int), l3)
    | [] => some ((0 : Int), l3)
  let mantNat : Int := (digitsToNat (ipDigits ++ fpDigits) : Int)
  let mant : Int := if neg then -mantNat else mantNat
  let q : ℚ := (mant : ℚ) / ((10 : ℚ) ^ fpDigits.length) * (10 : ℚ) ^ ex
  some (q, l4)

def hexDigitVal (c : Char) : Option Nat :=
  if '0' ≤ c && c ≤ '9' then some (c.toNat - 48)
  else if 'a' ≤ c && c ≤ 'f' then some (c.toNat - 87)
  else if 'A' ≤ c && c ≤ 'F' then some (c.toNat - 55)
  else none

def hex4 (h1 h2 h3 h4 : Char) : Option Nat := do
  let a ← hexDigitVal h1
  let b ← hexDigitVal h2
  let c ← hexDigitVal h3
  let d ← hexDigitVal h4
  some (((a * 16 + b) * 16 + c) * 16 + d)

/-- Lookahead after a `\uXXXX` escape whose value `n` is a high surrogate:
if a `\uXXXX` low surrogate follows, emit the combined scalar and consume
its six characters; otherwise emit U+FFFD (a lone surrogate is legal in JS
strings but not representable as a Unicode scalar) and consume nothing. -/
def surrogateStep (n : Nat) (t3 : List Char) : Char × Nat :=
  match t3 with
  | '\\' :: 'u' :: g1 :: g2 :: g3 :: g4 :: _ =>
    match hex4 g1 g2 g3 g4 with
    | some m =>
      if 0xdc00 ≤ m && m ≤ 0xdfff then
        (Char.ofNat (0x10000 + (n - 0xd800) * 0x400 + (m - 0xdc00)), 6)
      else ('\uFFFD', 0)
    | none => ('\uFFFD', 0)
  | _ => ('\uFFFD', 0)

/-- Parse a JSON string body after the opening quote, up to and including
the closing quote; handles the JSON escapes.  A `\uXXXX` surrogate pair is
combined into one scalar; a lone surrogate is modelled as U+FFFD.
Fuel-indexed (callers supply the remaining length plus one, which is ample
since every step consumes at least one character). -/
def parseStringBody : Nat → List Char → Option (List Char × List Char)
  | 0, _ => none
  | _, [] => none
  | fuel + 1, c :: t =>
    if c = '"' then some ([], t)
    else if c = '\\' then
      match t with
      | [] => none
      | e :: t2 =>
        if e = '"' then (fun p => ('"' :: p.1, p.2)) <$> parseStringBody fuel t2
        else if e = '\\' then (fun p => ('\\' :: p.1, p.2)) <$> parseStringBody fuel t2
        else if e = '/' then (fun p => ('/' :: p.1, p.2)) <$> parseStringBody fuel t2
        else if e = 'b' then (fun p => ('\x08' :: p.1, p.2)) <$> parseStringBody fuel t2
        else if e = 'f' then (fun p => ('\x0c' :: p.1, p.2)) <$> parseStringBody fuel t2
        else if e = 'n' then (fun p => ('\n' :: p.1, p.2)) <$> parseStringBody fuel t2
        else if e = 'r' then (fun p => ('\r' :: p.1, p.2)) <$> parseStringBody fuel t2
        else if e = 't' then (fun p => ('\t' :: p.1, p.2)) <$> parseStringBody fuel t2
        else if e = 'u' then
          match t2 with
          | h1 :: h2 :: h3 :: h4 :: t3 =>
            match hex4 h1 h2 h3 h4 with
            | none => none
            | some n =>
              if 0xd800 ≤ n && n ≤ 0xdbff then
                (fun p => ((surrogateStep n t3).1 :: p.1, p.2)) <$>
                  parseStringBody fuel (t3.drop (surrogateStep n t3).2)
              else if 0xdc00 ≤ n && n ≤ 0xdfff then
                (fun p => ('\uFFFD' :: p.1, p.2)) <$> parseStringBody fuel t3
              else
                (fun p => (Char.ofNat n :: p.1, p.2)) <$> parseStringBody fuel t3
          | _ => none
        else none
    else if c.toNat < 0x20 then none
    else (fun p => (c :: p.1, p.2)) <$> parseStringBody fuel t
termination_by structural fuel l => fuel

mutual

/-- Parse one JSON value (fuel-indexed; `jsonParse` supplies ample fuel). -/
def parseVal : Nat → List Char → Option (JSVal × List Char)
  | 0, _ => none
  | fuel + 1, l0 =>
    let l := skipJsonWs l0
    if "null".data.isPrefixOf l then some (.null, l.drop 4)
    else if "true".data.isPrefixOf l then some (.bool true, l.drop 4)
    else if "false".data.isPrefixOf l then some (.bool false, l.drop 5)
    else
      match l with
      | '"' :: t =>
        match parseStringBody (t.length + 1) t with
        | some (s, r) => some (.str s, r)
        | none => none
      | '[' :: t =>
        (match skipJsonWs t with
         | ']' :: r => some (.arr [], r)
         | _ =>
           match parseItems fuel t with
           | some (xs, r) => some (.arr xs, r)
           | none => none)
      | '\x7b' :: t =>
        (match skipJsonWs t with
         | '\x7d' :: r => some (.obj [], r)
         | _ =>
           match parseMembers fuel t with
           | some (fs, r) => some (.obj fs, r)
           | none => none)
      | _ =>
        match parseJsonNumber l with
        | some (q, r) => some (.num q, r)
        | none => none
termination_by structural fuel l => fuel

/-- Parse the comma-separated items of a non-empty JSON array, including
the closing bracket. -/
def parseItems : Nat → List Char → Option (List JSVal × List Char)
  | 0, _ => none
  | fuel + 1, l =>
    match parseVal fuel l with
    | some (v, r) =>
      (match skipJsonWs r with
       | ',' :: r2 =>
         match parseItems fuel r2 with
         | some (vs, r3) => some (v :: vs, r3)
         | none => none
       | ']' :: r2 => some ([v], r2)
       | _ => none)
    | none => none
termination_by structural fuel l => fuel

/-- Parse the comma-separated members of a non-empty JSON object, including
the closing brace. -/
def parseMembers : Nat → List Char → Option (List (List Char × JSVal) × List Char)
  | 0, _ => none
  | fuel + 1, l =>
    match skipJsonWs l with
    | '"' :: t =>
      (match parseStringBody (t.length + 1) t with
       | some (k, r) =>
         (match skipJsonWs r with
          | ':' :: r2 =>
            (match parseVal fuel r2 with
             | some (v, r3) =>
               (match skipJsonWs r3 with
                | ',' :: r4 =>
                  (match parseMembers fuel r4 with
                   | some (fs, r5) => some ((k, v) :: fs, r5)
                   | none => none)
                | '\x7d' :: r4 => some ([(k, v)], r4)
                | _ => none)
             | none => none)
          | _ => none)
       | none => none)
    | _ => none
termination_by structural fuel l => fuel

end

/-- `JSON.parse`: parse a complete JSON text; `none` models a thrown
`SyntaxError`. -/
def jsonParse (l : List Char) : Option JSVal :=
  match parseVal (2 * l.length + 2) l with
  | some (v, r) => if (skipJsonWs r).isEmpty then some v else none
  | none => none

/-- A thrown JS exception: either an `Error` instance carrying a message
(runtime `TypeError`s and explicit `throw new Error(...)` both), or a
thrown non-`Error` value. -/
inductive JsErr where
  | errObj : List Char → JsErr
  | thrownNonError : JsErr
deriving DecidableEq

/-- Representative messages for the runtime `TypeError`s this program can
hit (the exact V8 wording also names the receiver; no claim depends on the
text). -/
def readUndefinedMsg : List Char := "Cannot read properties of undefined".data

def readNullMsg : List Char := "Cannot read properties of null".data

def mapNotFunctionMsg : List Char := "map is not a function".data

def replaceNotFunctionMsg : List Char := "replace is not a function".data

/-- Object property lookup: `JSON.parse` keeps the last of the duplicate
keys, so lookup prefers the last matching entry. -/
def objGet (fs : List (List Char × JSVal)) (k : List Char) : Option JSVal :=
  match fs with
  | [] => none
  | (k', v) :: rest =>
    match objGet rest k with
    | some w => some w
    | none => if k' = k then some v else none

/-- Property read on a non-nullish value: objects by field, arrays and
strings expose `length`, other primitives have no own properties here. -/
def jsGetBase (v : JSVal) (key : List Char) : JSVal :=
  match v with
  | .obj fs => (objGet fs key).getD .undefined
  | .arr xs => if key = "length".data then .num (xs.length : ℚ) else .undefined
  | .str s => if key = "length".data then .num (s.length : ℚ) else .undefined
  | _ => .undefined

/-- Plain property access `v.key`: throws a `TypeError` on `undefined` and
`null`. -/
def jsGet (v : JSVal) (key : List Char) : Except JsErr JSVal :=
  match v with
  | .undefined => .error (.errObj readUndefinedMsg)
  | .null => .error (.errObj readNullMsg)
  | _ => .ok (jsGetBase v key)

/-- Optional-chain access `v?.key`: `undefined` when `v` is nullish. -/
def jsOptChain (v : JSVal) (key : List Char) : JSVal :=
  match v with
  | .undefined => .undefined
  | .null => .undefined
  | _ => jsGetBase v key

/-- JS truthiness. -/
def truthy : JSVal → Bool
  | .undefined => false
  | .null => false
  | .bool b => b
  | .num q => decide (q ≠ 0)
  | .str s => !s.isEmpty
  | .arr _ => true
  | .obj _ => true

def natDigits (n : Nat) : List Char := Nat.toDigits 10 n

def intToStr (n : Int) : List Char :=
  (if n < 0 then ['-'] else []) ++ natDigits n.natAbs

/-- Smallest `k ≤ 64` with `den ∣ 10 ^ k`, if any. -/
def pow10Exp (den : Nat) : Option Nat :=
  (List.range 65).find? fun k => decide (den ∣ 10 ^ k)

/-- JS number-to-string for the rationals this model produces: integers in
decimal, other decimal fractions in positional notation (a reduced rational
parsed from a JSON literal always has a power-of-ten-dividing denominator).
The exponent-notation thresholds of JS (`≥ 1e21`, `< 1e-6`) are outside the
model. -/
def ratToDecimalStr (q : ℚ) : List Char :=
  if q.den = 1 then intToStr q.num
  else
    match pow10Exp q.den with
    | some k =>
      let scaled : Nat := q.num.natAbs * (10 ^ k / q.den)
      let ds := natDigits scaled
      let ds := if ds.length ≤ k then List.replicate (k + 1 - ds.length) '0' ++ ds else ds
      (if q.num < 0 then ['-'] else []) ++ ds.take (ds.length - k) ++ '.' :: ds.drop (ds.length - k)
    | none => ['?']

/-- Join with commas (`Array.prototype.join` default separator). -/
def joinCommaStrs : List (List Char) → List Char
  | [] => []
  | [s] => s
  | s :: rest => s ++ ',' :: joinCommaStrs rest

mutual

/-- `String(v)` conversion as this program can observe it. -/
def jsValToStr : JSVal → List Char
  | .undefined => "undefined".data
  | .null => "null".data
  | .bool b => if b then "true".data else "false".data
  | .num q => ratToDecimalStr q
  | .str s => s
  | .arr xs => joinCommaStrs (jsValListToStrs xs)
  | .obj _ => "[object Object]".data

/-- `Array.prototype.toString` element conversion: `null` and `undefined`
become the empty string. -/
def jsValListToStrs : List JSVal → List (List Char)
  | [] => []
  | x :: xs =>
    (match x with
     | .undefined => []
     | .null => []
     | v => jsValToStr v) :: jsValListToStrs xs

end

/-- Lenient decimal literal for `ToNumber` on strings: optional sign,
digits with optional fraction, optional exponent; the whole string must be
consumed.  (`Infinity` and radix-prefixed literals are outside the model.) -/
def parseSignedDecimal (l : List Char) : Option ℚ := do
  let (neg, l1) :=
    match l with
    | c :: t =>
      if c = '+' then (false, t)
      else if c = '-' then (true, t)
      else (false, l)
    | [] => (false, l)
  let ip := l1.takeWhile isDigit
  let l2 := l1.dropWhile isDigit
  let (fp, l3) :=
    match l2 with
    | '.' :: t => (t.takeWhile isDigit, t.dropWhile isDigit)
    | _ => (([] : List Char), l2)
  if ip.isEmpty && fp.isEmpty then none
  else
    let (ex, l4) ←
      match l3 with
      | c :: t =>
        if c = 'e' || c = 'E' then
          let (esign, t1) :=
            match t with
            | c2 :: t2 =>
              if c2 = '+' then ((1 : Int), t2)
              else if c2 = '-' then ((-1 : Int), t2)
              else ((1 : Int), t)
            | [] => ((1 : Int), t)
          let ds := t1.takeWhile isDigit
          if ds.isEmpty then none
          else some (esign * (digitsToNat ds : Int), t1.dropWhile isDigit)
        else some ((0 : Int), l3)
      | [] => some ((0 : Int), l3)
    if l4.isEmpty then
      let mant : Int := (digitsToNat (ip ++ fp) : Int)
      let mant : Int := if neg then -mant else mant
      some ((mant : ℚ) / ((10 : ℚ) ^ fp.length) * (10 : ℚ) ^ ex)
    else none

/-- `ToNumber` on a string: trim, empty is `0`, else a decimal literal;
`none` models `NaN`. -/
def strToNumber (s : List Char) : Option ℚ :=
  let t := jsTrim s
  if t.isEmpty then some 0 else parseSignedDecimal t

/-- `ToNumber` as used by the `> 0` comparisons; `none` models `NaN`
(arrays and objects convert via their `toString`). -/
def jsToNumber : JSVal → Option ℚ
  | .undefined => none
  | .null => some 0
  | .bool b => some (if b then 1 else 0)
  | .num q => some q
  | .str s => strToNumber s
  | .arr xs => strToNumber (jsValToStr (.arr xs))
  | .obj _ => none

/-- The JS comparison `v > 0` (false when either side is `NaN`). -/
def jsGtZero (v : JSVal) : Bool :=
  match jsToNumber v with
  | some q => decide (0 < q)
  | none => false

/-- `escapeHtml(v)` called on an arbitrary value: only strings have
`.replace`; nullish receivers throw a property-read `TypeError`, other
non-strings throw `... .replace is not a function`. -/
def escapeHtmlJS (v : JSVal) : Except JsErr (List Char) :=
  match v with
  | .str s => .ok (escapeHtml s)
  | .undefined => .error (.errObj readUndefinedMsg)
  | .null => .error (.errObj readNullMsg)
  | _ => .error (.errObj replaceNotFunctionMsg)

/-- `v.map(f)` for a callback producing strings: only arrays have a callable
`map`; nullish receivers throw a property-read `TypeError`. -/
def jsArrayMapM (v : JSVal) (f : JSVal → Except JsErr (List Char)) :
    Except JsErr (List (List Char)) :=
  match v with
  | .arr xs => xs.mapM f
  | .undefined => .error (.errObj readUndefinedMsg)
  | .null => .error (.errObj readNullMsg)
  | _ => .error (.errObj mapNotFunctionMsg)

/-- Concatenation, i.e. `.join('')`. -/
def joinAll (ls : List (List Char)) : List Char :=
  ls.foldr (fun a b => a ++ b) []

def painPre : List Char :=
  "\n    <div class=\"result-section\">\n      <h2>Client\x27s Pain Points</h2>\n      <ul>\n        ".data

def painPost : List Char := "\n      </ul>\n    </div>".data

def solPre : List Char :=
  "\n    <div class=\"result-section\">\n        <h2>Proposed Solution</h2>\n        <p>".data

def solPost : List Char := "</p>\n    </div>\n    ".data

def techPre : List Char :=
  "\n    <div class=\"result-section\">\n        <h2>Recommended Tech Stack</h2>\n        <ul class=\"tech-stack\">\n            ".data

def techPost : List Char := "\n        </ul>\n    </div>\n    ".data

def srcPre : List Char :=
  "\n    <div class=\"result-section sources-section\">\n        <h2>Sources</h2>\n        <p>This outline was generated using information from the following sources:</p>\n        <ul>\n            ".data

def srcPost : List Char := "\n        </ul>\n    </div>\n    ".data

def linkPre : List Char := "<li><a href=\"".data

def linkMid : List Char := "\" target=\"_blank\" rel=\"noopener noreferrer\">".data

def linkPost : List Char := "</a></li>".data

/-- The `painPointsHtml` fragment of `displayResults`:
`data.painPoints?.length > 0` guards the section; each point is rendered
`<li>${escapeHtml(point)}</li>` and joined with `''`. -/
def painPointsSection (data : JSVal) : Except JsErr (List Char) := do
  let pp ← jsGet data ("painPoints".data)
  if jsGtZero (jsOptChain pp ("length".data)) then do
    let items ← jsArrayMapM pp fun point => do
      let e ← escapeHtmlJS point
      pure (("<li>".data) ++ e ++ ("</li>".data))
    pure (painPre ++ joinAll items ++ painPost)
  else pure []

/-- The `solutionHtml` fragment: `data.proposedSolution` truthiness guards
the section; the value is rendered through `escapeHtml`. -/
def solutionSection (data : JSVal) : Except JsErr (List Char) := do
  let sol ← jsGet data ("proposedSolution".data)
  if truthy sol then do
    let e ← escapeHtmlJS sol
    pure (solPre ++ e ++ solPost)
  else pure []

/-- The `techHtml` fragment: `data.recommendedTech?.length > 0` guards the
section; each entry is rendered `<li>${escapeHtml(tech)}</li>`. -/
def techSection (data : JSVal) : Except JsErr (List Char) := do
  let rt ← jsGet data ("recommendedTech".data)
  if jsGtZero (jsOptChain rt ("length".data)) then do
    let items ← jsArrayMapM rt fun tech => do
      let e ← escapeHtmlJS tech
      pure (("<li>".data) ++ e ++ ("</li>".data))
    pure (techPre ++ joinAll items ++ techPost)
  else pure []

/-- One grounding chunk inside the sources list:
`chunk.web ? \`<li><a href="${chunk.web.uri}" ...>${escapeHtml(chunk.web.title || chunk.web.uri)}</a></li>\` : ''`.
Note the `href` interpolation inserts `chunk.web.uri` without escaping. -/
def renderSourceChunk (chunk : JSVal) : Except JsErr (List Char) := do
  let web ← jsGet chunk ("web".data)
  if truthy web then do
    let uri := jsGetBase web ("uri".data)
    let title := jsGetBase web ("title".data)
    let display ← escapeHtmlJS (if truthy title then title else uri)
    pure (linkPre ++ jsValToStr uri ++ linkMid ++ display ++ linkPost)
  else pure []

/-- The `sourcesHtml` fragment: `groundingChunks?.length > 0` guards the
section (a chunk list whose entries lack web references still renders the
section frame). -/
def sourcesSection (groundingChunks : JSVal) : Except JsErr (List Char) :=
  if jsGtZero (jsOptChain groundingChunks ("length".data)) then do
    let items ← jsArrayMapM groundingChunks renderSourceChunk
    pure (srcPre ++ joinAll items ++ srcPost)
  else pure []

/-- The html that `displayResults` assigns to `resultsContainer.innerHTML`
(the four fragments are computed in source order; a thrown `TypeError`
propagates to the controller's `catch`). -/
def displayResultsHtml (data : JSVal) (groundingChunks : JSVal) :
    Except JsErr (List Char) := do
  let p ← painPointsSection data
  let s ← solutionSection data
  let t ← techSection data
  let src ← sourcesSection groundingChunks
  pure (("\n        ".data) ++ p ++ ("\n        ".data) ++ s ++ ("\n        ".data) ++ t
    ++ ("\n        ".data) ++ src ++ ("\n    ".data))

/-- The mutable UI surface: the module-level `isLoading` flag, the button's
`disabled` property, the loading indicator's `hidden` class and caption,
and the results container's `innerHTML` and `error` class. -/
structure UIState where
  isLoading : Bool
  generateBtnDisabled : Bool
  loadingHidden : Bool
  loadingMessage : List Char
  resultsHtml : List Char
  resultsError : Bool
deriving DecidableEq

def validationMsg : List Char := "Please paste a project description first.".data

def cleaningMsg : List Char := "Cleaning project description...".data

def researchingMsg : List Char := "Researching latest AI solutions...".data

/-- The default parameter of `setLoading`'s `message`. -/
def defaultLoadingMsg : List Char :=
  "Analyzing description and crafting your outline...".data

def unknownErrorMsg : List Char := "An unknown error occurred.".data

/-- The dedicated message thrown when `JSON.parse` fails on the cleaned
response text. -/
def invalidFormatMsg : List Char :=
  "The AI returned an invalid format. Please try again.".data

/-- The prefix of every message passed to `displayError` from the catch
block. -/
def errorIntro : List Char :=
  "An error occurred while generating the outline: ".data

/-- `displayError`: mark the results container with the error class and
replace its content with the escaped message in a paragraph. -/
def displayError (st : UIState) (message : List Char) : UIState :=
  { st with
    resultsError := true
    resultsHtml := ("<p>".data) ++ escapeHtml message ++ ("</p>".data) }

/-- `setLoading`: set the busy flag, disable the button, toggle the
indicator, set its caption, and clear the results area when entering the
loading state. -/
def setLoading (st : UIState) (state : Bool) (message : List Char) : UIState :=
  let st1 := { st with
    isLoading := state
    generateBtnDisabled := state
    loadingHidden := !state
    loadingMessage := message }
  if state then { st1 with resultsHtml := [], resultsError := false } else st1

/-- Observable events of one `handleGenerateClick` run, in order: the two
remote invocations, the `setLoading` transitions, and the render calls. -/
inductive Ev where
  | callSummarize : Ev
  | callOutline : Ev
  | evSetLoading : Bool → List Char → Ev
  | evDisplayError : List Char → Ev
  | evDisplayResults : List Char → Ev
deriving DecidableEq

/-- Outcomes of the two remote stages for one run: what `cleanDescription`
returns or throws, and what `getProposalOutline` returns or throws (its
response text together with the value of
`response.candidates?.[0]?.groundingMetadata?.groundingChunks`, which is
`undefined` when any link of that optional chain is missing). -/
structure RemoteEnv where
  summarizeResult : Except JsErr (List Char)
  outlineResult : Except JsErr (List Char × JSVal)

/-- Result of one `handleGenerateClick` run: the final UI state, the event
trace, and the exception escaping the handler, which the catch-all
`try`/`catch`/`finally` structure keeps at `none` on every path. -/
structure HandleResult where
  state : UIState
  events : List Ev
  uncaught : Option JsErr
deriving DecidableEq

/-- `error instanceof Error ? error.message : 'An unknown error occurred.'`. -/
def errorMessageOf : JsErr → List Char
  | .errObj m => m
  | .thrownNonError => unknownErrorMsg

/-- `handleGenerateClick` as a function of the starting UI state, the
textarea value, and the remote outcomes.  Mirrors the source structure:
busy guard; trim-and-validate; `setLoading(true, ...)`; the `try` block
running the two stages, the fence cleanup, `JSON.parse` (a failure is
converted into the dedicated invalid-format `Error`), and
`displayResults`; the catch-all converting any thrown error into a
`displayError` call; and the `finally` running `setLoading(false)`. -/
def handleGenerateClick (st : UIState) (inputValue : List Char) (env : RemoteEnv) :
    HandleResult :=
  if st.isLoading then ⟨st, [], none⟩
  else
    let projectDescription := jsTrim inputValue
    if projectDescription.isEmpty then
      ⟨displayError st validationMsg, [.evDisplayError validationMsg], none⟩
    else
      let st1 := setLoading st true cleaningMsg
      match env.summarizeResult with
      | .error e =>
        let msg := errorIntro ++ errorMessageOf e
        ⟨setLoading (displayError st1 msg) false defaultLoadingMsg,
         [.evSetLoading true cleaningMsg, .callSummarize,
          .evDisplayError msg, .evSetLoading false defaultLoadingMsg], none⟩
      | .ok _cleanedDescription =>
        let st2 := setLoading st1 true researchingMsg
        match env.outlineResult with
        | .error e =>
          let msg := errorIntro ++ errorMessageOf e
          ⟨setLoading (displayError st2 msg) false defaultLoadingMsg,
           [.evSetLoading true cleaningMsg, .callSummarize,
            .evSetLoading true researchingMsg, .callOutline,
            .evDisplayError msg, .evSetLoading false defaultLoadingMsg], none⟩
        | .ok (text, groundingChunks) =>
          match jsonParse (cleanResponseText text) with
          | none =>
            let msg := errorIntro ++ invalidFormatMsg
            ⟨setLoading (displayError st2 msg) false defaultLoadingMsg,
             [.evSetLoading true cleaningMsg, .callSummarize,
              .evSetLoading true researchingMsg, .callOutline,
              .evDisplayError msg, .evSetLoading false defaultLoadingMsg], none⟩
          | some resultJson =>
            match displayResultsHtml resultJson groundingChunks with
            | .error e =>
              let msg := errorIntro ++ errorMessageOf e
              ⟨setLoading (displayError st2 msg) false defaultLoadingMsg,
               [.evSetLoading true cleaningMsg, .callSummarize,
                .evSetLoading true researchingMsg, .callOutline,
                .evDisplayError msg, .evSetLoading false defaultLoadingMsg], none⟩
            | .ok html =>
              ⟨setLoading { st2 with resultsHtml := html } false defaultLoadingMsg,
               [.evSetLoading true cleaningMsg, .callSummarize,
                .evSetLoading true researchingMsg, .callOutline,
                .evDisplayResults html, .evSetLoading false defaultLoadingMsg], none⟩

/-- The html carried by a success result (`[]` for an error); lets closed
statements name the rendered output. -/
def okHtml : Except JsErr (List Char) → List Char
  | .ok h => h
  | .error _ => []

def isOkB : Except JsErr (List Char) → Bool
  | .ok _ => true
  | .error _ => false

/-- Substring occurrence test. -/
def occursIn (pat : List Char) : List Char → Bool
  | [] => pat.isEmpty
  | c :: rest => pat.isPrefixOf (c :: rest) || occursIn pat rest

/-- Recognises the `setLoading(false, ...)` events of a trace. -/
def isSetLoadingFalse : Ev → Bool
  | .evSetLoading false _ => true
  | _ => false

/-- Following the spec's words (for comparison with `sourcesSection`):
the citation list contains at least one citation carrying a web
reference. -/
def hasWebCitation : JSVal → Bool
  | .arr xs => xs.any fun c => truthy (jsOptChain c ("web".data))
  | _ => false

theorem replaceAll_append (t : Char) (r a b : List Char) :
    replaceAll t r (a ++ b) = replaceAll t r a ++ replaceAll t r b := by
  induction a with
  | nil => rfl
  | cons c cs ih =>
    by_cases h : c = t <;> simp [replaceAll, h, ih]

theorem escapeHtml_append (a b : List Char) :
    escapeHtml (a ++ b) = escapeHtml a ++ escapeHtml b := by
  simp [escapeHtml, replaceAll_append]

theorem escapeHtml_cons (c : Char) (s : List Char) :
    escapeHtml (c :: s) = escapeHtml [c] ++ escapeHtml s := by
  have h : c :: s = [c] ++ s := rfl
  rw [h, escapeHtml_append]

theorem escapeHtml_single (c : Char) : escapeHtml [c] = escChar c := by
  by_cases h1 : c = '&'
  · subst h1; rfl
  · by_cases h2 : c = '<'
    · subst h2; rfl
    · by_cases h3 : c = '>'
      · subst h3; rfl
      · by_cases h4 : c = '"'
        · subst h4; rfl
        · by_cases h5 : c = '\x27'
          · subst h5; rfl
          · simp [escapeHtml, replaceAll, escChar, h1, h2, h3, h4, h5]

theorem escapeHtml_eq_escapeList (s : List Char) : escapeHtml s = escapeList s := by
  induction s with
  | nil => rfl
  | cons c rest ih =>
    rw [escapeHtml_cons, escapeHtml_single, escapeList, ih]

theorem htmlDecode_escapeList (s : List Char) :
    htmlDecode (escapeList s) = s := by
  induction s with
  | nil => rw [escapeList, htmlDecode]
  | cons c rest ih =>
    rw [escapeList]
    by_cases h1 : c = '&'
    · subst h1
      show htmlDecode ('&' :: ('a' :: 'm' :: 'p' :: ';' :: escapeList rest)) = _
      rw [htmlDecode]
      simp [List.isPrefixOf, ih]
    · by_cases h2 : c = '<'
      · subst h2
        show htmlDecode ('&' :: ('l' :: 't' :: ';' :: escapeList rest)) = _
        rw [htmlDecode]
        simp [List.isPrefixOf, ih]
      · by_cases h3 : c = '>'
        · subst h3
          show htmlDecode ('&' :: ('g' :: 't' :: ';' :: escapeList rest)) = _
          rw [htmlDecode]
          simp [List.isPrefixOf, ih]
        · by_cases h4 : c = '"'
          · subst h4
            show htmlDecode ('&' :: ('q' :: 'u' :: 'o' :: 't' :: ';' :: escapeList rest)) = _
            rw [htmlDecode]
            simp [List.isPrefixOf, ih]
          · by_cases h5 : c = '\x27'
            · subst h5
              show htmlDecode ('&' :: ('#' :: '0' :: '3' :: '9' :: ';' :: escapeList rest)) = _
              rw [htmlDecode]
              simp [List.isPrefixOf, ih]
            · have hc : escChar c = [c] := by simp [escChar, h1, h2, h3, h4, h5]
              rw [hc]
              show htmlDecode (c :: escapeList rest) = _
              rw [htmlDecode]
              simp [h1, ih]

theorem ampEntityOk_escapeList (s : List Char) :
    ampEntityOk (escapeList s) = true := by
  induction s with
  | nil => rw [escapeList, ampEntityOk]
  | cons c rest ih =>
    rw [escapeList]
    by_cases h1 : c = '&'
    · subst h1
      show ampEntityOk ('&' :: ('a' :: 'm' :: 'p' :: ';' :: escapeList rest)) = _
      rw [ampEntityOk]
      simp [List.isPrefixOf, ih]
    · by_cases h2 : c = '<'
      · subst h2
        show ampEntityOk ('&' :: ('l' :: 't' :: ';' :: escapeList rest)) = _
        rw [ampEntityOk]
        simp [List.isPrefixOf, ih]
      · by_cases h3 : c = '>'
        · subst h3
          show ampEntityOk ('&' :: ('g' :: 't' :: ';' :: escapeList rest)) = _
          rw [ampEntityOk]
          simp [List.isPrefixOf, ih]
        · by_cases h4 : c = '"'
          · subst h4
            show ampEntityOk ('&' :: ('q' :: 'u' :: 'o' :: 't' :: ';' :: escapeList rest)) = _
            rw [ampEntityOk]
            simp [List.isPrefixOf, ih]
          · by_cases h5 : c = '\x27'
            · subst h5
              show ampEntityOk ('&' :: ('#' :: '0' :: '3' :: '9' :: ';' :: escapeList rest)) = _
              rw [ampEntityOk]
              simp [List.isPrefixOf, ih]
            · have hc : escChar c = [c] := by simp [escChar, h1, h2, h3, h4, h5]
              rw [hc]
              show ampEntityOk (c :: escapeList rest) = _
              rw [ampEntityOk]
              simp [h1, ih]

theorem noRawSpecials_append (a b : List Char) :
    noRawSpecials (a ++ b) = (noRawSpecials a && noRawSpecials b) := by
  simp [noRawSpecials, List.all_append]

theorem noRawSpecials_escapeList (s : List Char) :
    noRawSpecials (escapeList s) = true := by
  induction s with
  | nil => rfl
  | cons c rest ih =>
    rw [escapeList, noRawSpecials_append, ih, Bool.and_true]
    by_cases h1 : c = '&'
    · subst h1; decide
    · by_cases h2 : c = '<'
      · subst h2; decide
      · by_cases h3 : c = '>'
        · subst h3; decide
        · by_cases h4 : c = '"'
          · subst h4; decide
          · by_cases h5 : c = '\x27'
            · subst h5; decide
            · have hc : escChar c = [c] := by simp [escChar, h1, h2, h3, h4, h5]
              rw [hc]
              simp [noRawSpecials, h2, h3, h4, h5]

theorem scanTail_fence (l : List Char) : scanTail (l ++ fenceMark) = l := by
  induction l with
  | nil => rfl
  | cons c rest ih =>
    show scanTail (c :: (rest ++ fenceMark)) = c :: rest
    have he : c :: (rest ++ fenceMark) = (c :: rest ++ ['\x60', '\x60']) ++ ['\x60'] := by
      simp [fenceMark]
    have hlen : 3 ≤ (c :: rest ++ ['\x60', '\x60']).length := by
      simp
    have hdrop : ((c :: (rest ++ fenceMark)).drop 3).all isJsWs = false := by
      rw [he, List.drop_append_of_le_length hlen, List.all_append]
      simp [isJsWs]
    rw [scanTail, hdrop]
    simp [ih]

theorem dropTrailingWs_append_ws (l : List Char) (c : Char) (h : isJsWs c = true) :
    dropTrailingWs (l ++ [c]) = dropTrailingWs l := by
  simp [dropTrailingWs, h]

theorem dropWhile_head_false {α : Type} {p : α → Bool} {l t : List α} {c : α}
    (h : l.dropWhile p = c :: t) : p c = false := by
  induction l with
  | nil => simp at h
  | cons a l ih =>
    by_cases ha : p a = true
    · rw [List.dropWhile_cons_of_pos ha] at h
      exact ih h
    · rw [List.dropWhile_cons_of_neg ha] at h
      obtain ⟨rfl, -⟩ := List.cons.inj h
      simpa using ha

/-- The controller's fence cleanup on a JSON body wrapped in a leading
`` ```json `` fence (with a newline) and a trailing `` ``` `` fence equals
the trimmed body, for every body. -/
theorem cleanResponseText_json_fence (b : List Char) :
    cleanResponseText (fenceJsonMark ++ '\n' :: (b ++ '\n' :: fenceMark)) = jsTrim b := by
  have hpre : fenceJsonMark.isPrefixOf (fenceJsonMark ++ '\n' :: (b ++ '\n' :: fenceMark)) = true := by
    simp
  have hdrop7 : (fenceJsonMark ++ '\n' :: (b ++ '\n' :: fenceMark)).drop 7 =
      '\n' :: (b ++ '\n' :: fenceMark) := by
    have h7 : 7 ≤ fenceJsonMark.length := by simp [fenceJsonMark, fenceMark]
    rw [List.drop_append_of_le_length h7]
    rfl
  rw [cleanResponseText, fenceReplace, if_pos hpre, hdrop7]
  rw [List.dropWhile_cons_of_pos (by decide : isJsWs '\n' = true)]
  rw [List.dropWhile_append]
  rcases hb : b.dropWhile isJsWs with _ | ⟨c, b₂⟩
  · simp only [hb, List.isEmpty_nil, if_true]
    rw [List.dropWhile_cons_of_pos (by decide : isJsWs '\n' = true)]
    have hfm : fenceMark.dropWhile isJsWs = fenceMark := by decide
    rw [hfm]
    have h0 : scanTail fenceMark = [] := scanTail_fence []
    rw [h0]
    simp [jsTrim, hb, dropTrailingWs]
  · rw [if_neg (by simp : ¬((c :: b₂).isEmpty = true))]
    have hassoc : c :: b₂ ++ '\n' :: fenceMark = (c :: (b₂ ++ ['\n'])) ++ fenceMark := by
      simp
    rw [hassoc, scanTail_fence]
    have hc : isJsWs c = false := dropWhile_head_false hb
    rw [jsTrim]
    rw [List.dropWhile_cons_of_neg (by simp [hc])]
    rw [show c :: (b₂ ++ ['\n']) = (c :: b₂) ++ ['\n'] by simp]
    rw [dropTrailingWs_append_ws _ _ (by decide)]
    rw [jsTrim, hb]

/-- C10: `escapeHtml` produces no literal `<`, `>`, `"`, `'`; every `&` of
its output begins one of the five entity sequences; it is injective;
decoding the five entities recovers the original string exactly; and it is
not idempotent (a second application double-escapes, witnessed at `"&"`). -/
theorem c10_escapeHtml_roundtrip :
    (∀ s, noRawSpecials (escapeHtml s) = true)
    ∧ (∀ s, ampEntityOk (escapeHtml s) = true)
    ∧ (∀ s t : List Char, escapeHtml s = escapeHtml t → s = t)
    ∧ (∀ s, htmlDecode (escapeHtml s) = s)
    ∧ escapeHtml (escapeHtml ['&']) ≠ escapeHtml ['&'] := by
  refine ⟨?_, ?_, ?_, ?_, ?_⟩
  · intro s
    rw [escapeHtml_eq_escapeList]
    exact noRawSpecials_escapeList s
  · intro s
    rw [escapeHtml_eq_escapeList]
    exact ampEntityOk_escapeList s
  · intro s t h
    calc s = htmlDecode (escapeHtml s) := by
            rw [escapeHtml_eq_escapeList, htmlDecode_escapeList]
      _ = htmlDecode (escapeHtml t) := by rw [h]
      _ = t := by rw [escapeHtml_eq_escapeList, htmlDecode_escapeList]
  · intro s
    rw [escapeHtml_eq_escapeList, htmlDecode_escapeList]
  · decide

/-- C10 witness: the round trip and the injectivity hypothesis discharged
at concrete inputs. -/
theorem c10_escapeHtml_roundtrip_witness :
    htmlDecode (escapeHtml ("<script>&\x27\"".data)) = "<script>&\x27\"".data
    ∧ "ab".data = "ab".data :=
  ⟨c10_escapeHtml_roundtrip.2.2.2.1 _,
   c10_escapeHtml_roundtrip.2.2.1 ("ab".data) ("ab".data) rfl⟩

/-- C2 counterexample: the pre-parse cleanup does not strip a bare leading
`` ``` `` fence (the anchored alternative requires the literal `json`), so
a JSON body wrapped in bare fences fails to parse although the unwrapped
body parses; and the cleanup is not idempotent (`"x``````"` cleans to
`"x```"`, and cleaning again yields `"x"`). -/
theorem c2_counterexample :
    (jsonParse (cleanResponseText ("\x60\x60\x60\n\x7b\"painPoints\":[]\x7d\n\x60\x60\x60".data))).isSome = false
    ∧ (jsonParse ("\x7b\"painPoints\":[]\x7d".data)).isSome = true
    ∧ cleanResponseText (cleanResponseText ("x\x60\x60\x60\x60\x60\x60".data))
        ≠ cleanResponseText ("x\x60\x60\x60\x60\x60\x60".data) := by
  refine ⟨by decide, by decide, by decide⟩

/-- C2 (amended): the cleanup strips an optional leading `` ```json ``
fence (a bare leading `` ``` `` is not matched) and an optional trailing
`` ``` `` (whitespace-tolerant), then trims; it is not idempotent in
general; and for every body `b`, a `` ```json ``-wrapped `b` cleans to
exactly `trim b`, hence parses to a structure equivalent to the unwrapped
body — instantiated at the spec's example. -/
theorem c2_fence_stripping :
    (∀ b : List Char,
      cleanResponseText (fenceJsonMark ++ '\n' :: (b ++ '\n' :: fenceMark)) = jsTrim b)
    ∧ cleanResponseText ("\x60\x60\x60json\n\x7b\"painPoints\":[]\x7d\n\x60\x60\x60".data)
        = "\x7b\"painPoints\":[]\x7d".data
    ∧ jsonParse (cleanResponseText ("\x60\x60\x60json\n\x7b\"painPoints\":[]\x7d\n\x60\x60\x60".data))
        = jsonParse ("\x7b\"painPoints\":[]\x7d".data) := by
  refine ⟨cleanResponseText_json_fence, by decide, ?_⟩
  rfl

set_option maxRecDepth 20000 in
/-- C1 (evaluation at the failing input): with one citation whose
`web.uri` is `<script>alert(1)</script>`, `displayResults` succeeds, its
link display text is escaped (`&lt;script&gt;` occurs), but the `href`
attribute interpolation inserts the uri unescaped, so the raw `<script>`
occurs in the html assigned to the view — contradicting the claim that a
field value containing `<script>` appears only as escaped text. -/
theorem c1_unescaped_uri_in_href :
    isOkB (displayResultsHtml (.obj [])
        (.arr [.obj [("web".data, .obj [("uri".data, .str ("<script>alert(1)</script>".data))])]])) = true
    ∧ occursIn ("<script>".data)
        (okHtml (displayResultsHtml (.obj [])
          (.arr [.obj [("web".data, .obj [("uri".data, .str ("<script>alert(1)</script>".data))])]]))) = true
    ∧ occursIn ("&lt;script&gt;".data)
        (okHtml (displayResultsHtml (.obj [])
          (.arr [.obj [("web".data, .obj [("uri".data, .str ("<script>alert(1)</script>".data))])]]))) = true := by
  refine ⟨by decide, by decide, by decide⟩

/-- C3 counterexample: one citation without any web reference — the claim
says the sources section renders only if a citation carries a web
reference, but the code's guard is `groundingChunks?.length > 0`, so the
section (with its `Sources` heading) renders anyway. -/
theorem c3_counterexample :
    hasWebCitation (.arr [.obj []]) = false
    ∧ isOkB (sourcesSection (.arr [.obj []])) = true
    ∧ okHtml (sourcesSection (.arr [.obj []])) ≠ []
    ∧ occursIn ("<h2>Sources</h2>".data) (okHtml (sourcesSection (.arr [.obj []]))) = true := by
  refine ⟨by decide, by decide, by decide, by decide⟩

/-- C3 (amended): the sources section renders iff the citation list is
non-empty (its `length > 0` check), regardless of whether any citation
carries a web reference; absent citations (`undefined`) or an empty list
render nothing; a citation with a web reference renders a link whose
display text is the escaped title, falling back to the escaped URI when no
title is supplied (while the `href` attribute takes the raw URI). -/
theorem painPointsSection_absent (fs : List (List Char × JSVal))
    (h : objGet fs ("painPoints".data) = none) :
    painPointsSection (.obj fs) = .ok [] := by
  simp [painPointsSection, jsGet, jsGetBase, h, jsOptChain, jsGtZero, jsToNumber,
    Bind.bind, Except.bind, Pure.pure, Except.pure]

theorem solutionSection_absent (fs : List (List Char × JSVal))
    (h : objGet fs ("proposedSolution".data) = none) :
    solutionSection (.obj fs) = .ok [] := by
  simp [solutionSection, jsGet, jsGetBase, h, truthy, Bind.bind, Except.bind,
    Pure.pure, Except.pure]

theorem techSection_absent (fs : List (List Char × JSVal))
    (h : objGet fs ("recommendedTech".data) = none) :
    techSection (.obj fs) = .ok [] := by
  simp [techSection, jsGet, jsGetBase, h, jsOptChain, jsGtZero, jsToNumber,
    Bind.bind, Except.bind, Pure.pure, Except.pure]

theorem c3_sources_rendering :
    sourcesSection .undefined = .ok []
    ∧ sourcesSection (.arr []) = .ok []
    ∧ (∀ xs h, xs ≠ [] → sourcesSection (.arr xs) = .ok h → h ≠ [])
    ∧ (∀ u, renderSourceChunk (.obj [("web".data, .obj [("uri".data, .str u)])])
        = .ok (linkPre ++ u ++ linkMid ++ escapeHtml u ++ linkPost))
    ∧ (∀ u t, t ≠ [] →
        renderSourceChunk
            (.obj [("web".data, .obj [("uri".data, .str u), ("title".data, .str t)])])
          = .ok (linkPre ++ u ++ linkMid ++ escapeHtml t ++ linkPost)) := by
  refine ⟨rfl, rfl, ?_, ?_, ?_⟩
  · intro xs h hne hok
    cases xs with
    | nil => exact absurd rfl hne
    | cons a as =>
      rw [sourcesSection] at hok
      have hg : jsGtZero (jsOptChain (.arr (a :: as)) ("length".data)) = true := by
        simp [jsOptChain, jsGetBase, jsGtZero, jsToNumber]
        positivity
      rw [hg] at hok
      simp only [if_true] at hok
      cases hmap : jsArrayMapM (.arr (a :: as)) renderSourceChunk with
      | error e =>
        rw [hmap] at hok
        simp [Bind.bind, Except.bind] at hok
      | ok items =>
        rw [hmap] at hok
        simp only [Bind.bind, Except.bind, pure, Except.pure, Except.ok.injEq] at hok
        intro hcontra
        rw [hcontra] at hok
        exact absurd (List.append_eq_nil.mp (List.append_eq_nil.mp hok).1).1 (by decide)
  · intro u
    rfl
  · intro u t ht
    cases t with
    | nil => exact absurd rfl ht
    | cons a l => rfl

/-- C3 witness: the hypotheses of the amended statement discharged at the
spec's example citation `{web: {uri: "https://e.com"}}` and at a titled
citation. -/
theorem c3_sources_rendering_witness :
    okHtml (sourcesSection (.arr [.obj [("web".data, .obj [("uri".data, .str ("https://e.com".data))])]])) ≠ []
    ∧ renderSourceChunk
          (.obj [("web".data, .obj [("uri".data, .str ("https://e.com".data)), ("title".data, .str ("T".data))])])
        = .ok (linkPre ++ ("https://e.com".data) ++ linkMid ++ escapeHtml ("T".data) ++ linkPost) :=
  ⟨c3_sources_rendering.2.2.1
      [.obj [("web".data, .obj [("uri".data, .str ("https://e.com".data))])]]
      (okHtml (sourcesSection (.arr [.obj [("web".data, .obj [("uri".data, .str ("https://e.com".data))])]])))
      (List.cons_ne_nil _ _) rfl,
   c3_sources_rendering.2.2.2.2 ("https://e.com".data) ("T".data) (by decide)⟩

set_option maxRecDepth 20000 in
/-- C4 counterexample: a present but wrong-typed field does not merely
omit its section — `painPoints` bound to the string `"ab"` passes the
`?.length > 0` guard and then `.map` throws a `TypeError`, so rendering
fails instead of omitting the section. -/
theorem c4_counterexample :
    displayResultsHtml (.obj [("painPoints".data, .str ("ab".data))]) .undefined
      = .error (.errObj mapNotFunctionMsg) := by
  rfl

/-- C4 (amended): an absent field causes only its own section to be
omitted and cannot crash rendering (with all three fields absent the
renderer succeeds with all sections empty); but a present field of the
wrong shape may pass the guard and throw, taking the error path, as the
counterexample shows. -/
theorem c4_absent_fields_degrade :
    (∀ fs, objGet fs ("painPoints".data) = none → painPointsSection (.obj fs) = .ok [])
    ∧ (∀ fs, objGet fs ("proposedSolution".data) = none → solutionSection (.obj fs) = .ok [])
    ∧ (∀ fs, objGet fs ("recommendedTech".data) = none → techSection (.obj fs) = .ok [])
    ∧ (∀ fs, objGet fs ("painPoints".data) = none →
        objGet fs ("proposedSolution".data) = none →
        objGet fs ("recommendedTech".data) = none →
        displayResultsHtml (.obj fs) .undefined
          = .ok ("\n        \n        \n        \n        \n    ".data)) := by
  refine ⟨painPointsSection_absent, solutionSection_absent, techSection_absent, ?_⟩
  intro fs h1 h2 h3
  rw [displayResultsHtml]
  rw [painPointsSection_absent fs h1, solutionSection_absent fs h2, techSection_absent fs h3]
  rfl

/-- C4 witness: the amended statement at the empty payload object. -/
theorem c4_absent_fields_degrade_witness :
    displayResultsHtml (.obj []) .undefined
      = .ok ("\n        \n        \n        \n        \n    ".data) :=
  c4_absent_fields_degrade.2.2.2 [] rfl rfl rfl

theorem isEmpty_false_of_ne_nil {l : List Char} (h : l ≠ []) : l.isEmpty = false := by
  cases l with
  | nil => exact absurd rfl h
  | cons a t => rfl

/-- C7: triggering generation while the busy flag is set is a silent no-op:
no events (hence no remote calls, no renders, no loading transitions) and
the state is returned unchanged. -/
theorem c7_busy_reentrancy_noop (st : UIState) (input : List Char) (env : RemoteEnv)
    (h : st.isLoading = true) :
    handleGenerateClick st input env = ⟨st, [], none⟩ := by
  simp [handleGenerateClick, h]

/-- C7 witness. -/
theorem c7_busy_reentrancy_noop_witness :
    handleGenerateClick ⟨true, true, false, cleaningMsg, [], false⟩ ("x".data)
        ⟨.ok [], .ok ([], .undefined)⟩
      = ⟨⟨true, true, false, cleaningMsg, [], false⟩, [], none⟩ :=
  c7_busy_reentrancy_noop _ _ _ rfl

/-- C6: whitespace-only (hence trimmed-empty) input short-circuits: the only
event is the validation-error render, no remote stage runs, the busy flag is
never set, and the fixed validation message (which escapes to itself) is
rendered in the error style while the loading indicator is untouched. -/
theorem c6_empty_input_validation (st : UIState) (input : List Char) (env : RemoteEnv)
    (hb : st.isLoading = false) (he : jsTrim input = []) :
    handleGenerateClick st input env
      = ⟨displayError st validationMsg, [.evDisplayError validationMsg], none⟩
    ∧ Ev.callSummarize ∉ (handleGenerateClick st input env).events
    ∧ Ev.callOutline ∉ (handleGenerateClick st input env).events
    ∧ (handleGenerateClick st input env).state.isLoading = false
    ∧ (handleGenerateClick st input env).state.resultsHtml
        = ("<p>".data) ++ validationMsg ++ ("</p>".data)
    ∧ (handleGenerateClick st input env).state.resultsError = true
    ∧ (handleGenerateClick st input env).state.loadingHidden = st.loadingHidden
    ∧ (handleGenerateClick st input env).state.loadingMessage = st.loadingMessage := by
  have hh : handleGenerateClick st input env
      = ⟨displayError st validationMsg, [.evDisplayError validationMsg], none⟩ := by
    simp [handleGenerateClick, hb, he]
  have hesc : escapeHtml validationMsg = validationMsg := by decide
  refine ⟨hh, ?_, ?_, ?_, ?_, ?_, ?_, ?_⟩ <;>
    simp [hh, displayError, hb, hesc]

/-- C6 witness. -/
theorem c6_empty_input_validation_witness :
    handleGenerateClick ⟨false, false, true, defaultLoadingMsg, [], false⟩ ("   ".data)
        ⟨.ok [], .ok ([], .undefined)⟩
      = ⟨displayError ⟨false, false, true, defaultLoadingMsg, [], false⟩ validationMsg,
         [.evDisplayError validationMsg], none⟩ :=
  (c6_empty_input_validation _ _ _ rfl (by decide)).1

/-- C9: when the Summarizer stage throws, the run renders the error message
(the thrown `Error`'s own message, or the generic fallback for a non-`Error`
value, behind the fixed prefix) and the Outline stage is never invoked. -/
theorem c9_summarizer_failure (st : UIState) (input : List Char) (env : RemoteEnv)
    (e : JsErr) (hb : st.isLoading = false) (hin : jsTrim input ≠ [])
    (hsum : env.summarizeResult = .error e) :
    (handleGenerateClick st input env).events
      = [.evSetLoading true cleaningMsg, .callSummarize,
         .evDisplayError (errorIntro ++ errorMessageOf e),
         .evSetLoading false defaultLoadingMsg]
    ∧ Ev.callOutline ∉ (handleGenerateClick st input env).events
    ∧ (handleGenerateClick st input env).state.resultsHtml
        = ("<p>".data) ++ escapeHtml (errorIntro ++ errorMessageOf e) ++ ("</p>".data)
    ∧ (∀ m, errorMessageOf (.errObj m) = m)
    ∧ errorMessageOf .thrownNonError = unknownErrorMsg := by
  have hie := isEmpty_false_of_ne_nil hin
  refine ⟨?_, ?_, ?_, fun m => rfl, rfl⟩ <;>
    simp [handleGenerateClick, hb, hie, hsum, setLoading, displayError]

/-- C9 witness. -/
theorem c9_summarizer_failure_witness :
    (handleGenerateClick ⟨false, false, true, defaultLoadingMsg, [], false⟩ ("hi".data)
        ⟨.error (.errObj ("boom".data)), .ok ([], .undefined)⟩).events
      = [.evSetLoading true cleaningMsg, .callSummarize,
         .evDisplayError (errorIntro ++ errorMessageOf (.errObj ("boom".data))),
         .evSetLoading false defaultLoadingMsg] :=
  (c9_summarizer_failure _ _ _ _ rfl (by decide) rfl).1

/-- C5: when both remote stages succeed but the cleaned response text is not
valid JSON, the run renders exactly the dedicated invalid-format message
(behind the fixed prefix; distinct from the generic remote-failure
fallback), never emits a results render, leaves no partial results (the
error paragraph is the whole content), and no exception escapes. -/
theorem c5_invalid_format_error (st : UIState) (input : List Char) (env : RemoteEnv)
    (cleaned text : List Char) (chunks : JSVal)
    (hb : st.isLoading = false) (hin : jsTrim input ≠ [])
    (hsum : env.summarizeResult = .ok cleaned)
    (hout : env.outlineResult = .ok (text, chunks))
    (hparse : jsonParse (cleanResponseText text) = none) :
    (handleGenerateClick st input env).state.resultsHtml
        = ("<p>".data) ++ escapeHtml (errorIntro ++ invalidFormatMsg) ++ ("</p>".data)
    ∧ (handleGenerateClick st input env).state.resultsError = true
    ∧ (handleGenerateClick st input env).state.isLoading = false
    ∧ (∀ h, Ev.evDisplayResults h ∉ (handleGenerateClick st input env).events)
    ∧ (handleGenerateClick st input env).uncaught = none
    ∧ invalidFormatMsg ≠ unknownErrorMsg := by
  have hie := isEmpty_false_of_ne_nil hin
  refine ⟨?_, ?_, ?_, ?_, ?_, by decide⟩ <;>
    simp [handleGenerateClick, hb, hie, hsum, hout, hparse, setLoading, displayError]

/-- C5 witness. -/
theorem c5_invalid_format_error_witness :
    (handleGenerateClick ⟨false, false, true, defaultLoadingMsg, [], false⟩ ("hi".data)
        ⟨.ok ("c".data), .ok ("not json".data, .undefined)⟩).state.resultsHtml
      = ("<p>".data) ++ escapeHtml (errorIntro ++ invalidFormatMsg) ++ ("</p>".data) :=
  (c5_invalid_format_error _ _ _ ("c".data) ("not json".data) .undefined
    rfl (by decide) rfl rfl rfl).1

/-- C8: every run that enters the busy state (not busy, non-empty trimmed
input) clears it exactly once on exit — the trace contains exactly one
`setLoading(false, ...)` event, it is the last event, and it restores the
default caption — regardless of which of the five exit paths was taken
(summarizer failure, outline failure, parse failure, render failure, or
success). -/
theorem c8_busy_cleared_once (st : UIState) (input : List Char) (env : RemoteEnv)
    (hb : st.isLoading = false) (hin : jsTrim input ≠ []) :
    (handleGenerateClick st input env).events.filter isSetLoadingFalse
        = [.evSetLoading false defaultLoadingMsg]
    ∧ (handleGenerateClick st input env).events.getLast?
        = some (.evSetLoading false defaultLoadingMsg)
    ∧ (handleGenerateClick st input env).state.isLoading = false
    ∧ (handleGenerateClick st input env).state.loadingMessage = defaultLoadingMsg
    ∧ (handleGenerateClick st input env).state.generateBtnDisabled = false
    ∧ (handleGenerateClick st input env).state.loadingHidden = true := by
  have hie := isEmpty_false_of_ne_nil hin
  cases henv : env.summarizeResult with
  | error e =>
    refine ⟨?_, ?_, ?_, ?_, ?_, ?_⟩ <;>
      simp [handleGenerateClick, hb, hie, henv, setLoading, displayError,
        isSetLoadingFalse, List.filter]
  | ok cleaned =>
    cases hout : env.outlineResult with
    | error e =>
      refine ⟨?_, ?_, ?_, ?_, ?_, ?_⟩ <;>
        simp [handleGenerateClick, hb, hie, henv, hout, setLoading, displayError,
          isSetLoadingFalse, List.filter]
    | ok p =>
      cases hp : jsonParse (cleanResponseText p.1) with
      | none =>
        refine ⟨?_, ?_, ?_, ?_, ?_, ?_⟩ <;>
          simp [handleGenerateClick, hb, hie, henv, hout, hp, setLoading, displayError,
            isSetLoadingFalse, List.filter]
      | some j =>
        cases hd : displayResultsHtml j p.2 with
        | error e =>
          refine ⟨?_, ?_, ?_, ?_, ?_, ?_⟩ <;>
            simp [handleGenerateClick, hb, hie, henv, hout, hp, hd, setLoading,
              displayError, isSetLoadingFalse, List.filter]
        | ok html =>
          refine ⟨?_, ?_, ?_, ?_, ?_, ?_⟩ <;>
            simp [handleGenerateClick, hb, hie, henv, hout, hp, hd, setLoading,
              displayError, isSetLoadingFalse, List.filter]

/-- C8 witness. -/
theorem c8_busy_cleared_once_witness :
    (handleGenerateClick ⟨false, false, true, defaultLoadingMsg, [], false⟩ ("hi".data)
        ⟨.error .thrownNonError, .ok ([], .undefined)⟩).events.filter isSetLoadingFalse
      = [.evSetLoading false defaultLoadingMsg] :=
  (c8_busy_cleared_once _ _ _ rfl (by decide)).1

end ProposalAssistant
